import Mathlib

/-!
Shallow embedding of the core Scheme interpreter of `src/scheme.py`
(michellelinggg/Scheme-Emulator): the Scheme value model, the environment
model (`Frame`), the special-form handlers, the naive evaluator
`scheme_eval` and the tail-call-preserving evaluator
`scheme_optimized_eval`, together with proofs of the specification claims.

Modelling conventions:
* Scheme values and expressions are one inductive type `SValue`, mirroring
  the Python universe that flows through the interpreter (numbers,
  booleans, strings, symbols, `nil`, pairs, the `okay` sentinel and the
  three procedure variants).
* Python `Frame` objects are mutable and shared (closures capture them),
  so frames live in an explicit store (`Store`, a list of `FrameData`)
  and are referenced by index; `LambdaProcedure.env` is such an index.
  Every operation threads the store; errors also carry the store at the
  time they are raised, because in Python mutations performed before an
  exception persist.
* Failures are `Except Err`, with one `Err` constructor per distinct
  `SchemeError` message raised in `scheme.py`, plus `Err.hostCrash` for
  Python-level exceptions that are not `SchemeError` (e.g. the
  `AttributeError` from taking `.first` of a non-pair).
* Recursion through `eval`/`apply` is made total with an explicit fuel
  parameter; `none` means the fuel ran out, i.e. the modelled run did not
  terminate within the given depth.  All definitions are structurally
  recursive and hence compute by `decide`/`rfl`.
* Handlers such as `do_if_form` call the global `scheme_eval` in the
  source; here they take that evaluator as an explicit argument `ev`
  (open recursion), and the fuel-indexed evaluators tie the knot.
-/

namespace SchemeEmu

/-- Scheme values / expressions, as in `scheme_reader.py` / `scheme.py`:
numbers, booleans, strings, symbols, the `nil` empty list, pairs, the
`okay` sentinel, and the three procedure variants (`PrimitiveProcedure`
as an index into a host table, `LambdaProcedure` capturing its defining
frame, `MuProcedure` capturing nothing). -/
inductive SValue where
  | num (n : Int)
  | boolean (b : Bool)
  | strv (s : String)
  | sym (s : String)
  | nil
  | pair (first second : SValue)
  | okay
  | prim (id : Nat) (useEnv : Bool)
  | lambdaP (formals body : SValue) (env : Nat)
  | muP (formals body : SValue)
deriving DecidableEq, Repr

/-- Error outcomes.  Each constructor corresponds to one distinct
`SchemeError` message in `scheme.py`; `hostCrash` stands for a Python
exception that is not a `SchemeError` (such as an `AttributeError` from
`.first` on a non-pair, or a `TypeError` from `len()` on an improper
list). -/
inductive Err where
  | unknownIdentifier (s : String)
  | malformedList
  | parameterMismatch
  | badVariableName
  | tooFewOperands
  | tooManyOperands
  | badlyFormedExpression
  | badDefineTarget
  | badBindingsList
  | elseNotLast
  | badElseClause
  | duplicateFormal (v : SValue)
  | invalidFormal (v : SValue)
  | notCallable
  | callError
  | hostCrash
deriving DecidableEq, Repr

/-- One `Frame`: its own bindings (an insertion-ordered association list,
modelling the Python dict) and an optional parent frame reference. -/
structure FrameData where
  bindings : List (String × SValue)
  parent : Option Nat
deriving DecidableEq, Repr

/-- The heap of frames; frames are referenced by their index.  New frames
are appended, so in every store produced by evaluation a frame's parent
index is smaller than its own index. -/
abbrev Store := List FrameData

/-- `scheme_symbolp`: symbols are the interpreter's identifiers. -/
def scheme_symbolp : SValue → Bool
  | .sym _ => true
  | _ => false

/-- `scheme_stringp`. -/
def scheme_stringp : SValue → Bool
  | .strv _ => true
  | _ => false

/-- Modelled from the spec: `scheme_atomp` lives in the external
`scheme_primitives` collaborator; per spec section 3, atoms are the
self-evaluating literals other than strings (numbers, booleans), strings
being recognised separately by `scheme_stringp` in the evaluator's
dispatch. -/
def scheme_atomp : SValue → Bool
  | .num _ => true
  | .boolean _ => true
  | _ => false

/-- `scheme_true`: every value is true except `False`. -/
def scheme_true (v : SValue) : Bool := v ≠ .boolean false

/-- `scheme_false`. -/
def scheme_false (v : SValue) : Bool := v = .boolean false

/-- `scheme_listp`: a well-formed (proper) list. -/
def scheme_listp : SValue → Bool
  | .nil => true
  | .pair _ second => scheme_listp second
  | _ => false

/-- Length of a proper list (`len` on a `Pair`); meaningful only after a
`scheme_listp` check, exactly as in the source. -/
def slistLength : SValue → Nat
  | .pair _ second => slistLength second + 1
  | _ => 0

/-- View a proper Scheme list as a Lean list (`none` when improper, where
Python `len`/indexing/iteration would raise `TypeError`). -/
def toList : SValue → Option (List SValue)
  | .nil => some []
  | .pair a second => (toList second).map (fun l => a :: l)
  | _ => none

/-- Build a proper Scheme list from a Lean list. -/
def ofList : List SValue → SValue
  | [] => .nil
  | a :: rest => .pair a (ofList rest)

/-- `quote(value)` from `scheme.py`: the expression `(quote value)`. -/
def quote (value : SValue) : SValue := .pair (.sym "quote") (.pair value .nil)

/-- Dict read on a frame's bindings. -/
def bindingsGet : List (String × SValue) → String → Option SValue
  | [], _ => none
  | (k, v) :: rest, s => if k = s then some v else bindingsGet rest s

/-- Dict write: overwrite in place, else append (Python dicts preserve
insertion order). -/
def bindingsInsert : List (String × SValue) → String → SValue → List (String × SValue)
  | [], s, v => [(s, v)]
  | (k, w) :: rest, s, v => if k = s then (s, v) :: rest else (k, w) :: bindingsInsert rest s v

/-- Read a frame from the store. -/
def storeGet : Store → Nat → Option FrameData
  | [], _ => none
  | fr :: _, 0 => some fr
  | _ :: rest, n + 1 => storeGet rest n

/-- Replace a frame in the store. -/
def storeSet : Store → Nat → FrameData → Store
  | [], _, _ => []
  | _ :: rest, 0, fr => fr :: rest
  | f :: rest, n + 1, fr => f :: storeSet rest n fr

/-- `Frame.lookup`'s parent-chain walk.  The walk is bounded by `addr + 1`
steps: in every store built by evaluation a parent index is strictly
smaller than its frame's index, so the bound is never hit there;
exhausting it (or dereferencing a dangling index) is `hostCrash`. -/
def frame_lookupAux (st : Store) : Nat → Nat → String → Except Err SValue
  | 0, _, _ => .error .hostCrash
  | bound + 1, addr, s =>
    match storeGet st addr with
    | none => .error .hostCrash
    | some fr =>
      match bindingsGet fr.bindings s with
      | some v => .ok v
      | none =>
        match fr.parent with
        | none => .error (.unknownIdentifier s)
        | some p => frame_lookupAux st bound p s

/-- `Frame.lookup`: first binding along the parent chain, else the
`unknown identifier` error. -/
def frame_lookup (st : Store) (addr : Nat) (s : String) : Except Err SValue :=
  frame_lookupAux st (addr + 1) addr s

/-- `Frame.define`: insert/overwrite in the current frame only; the
`bad variable name` error if the key is not a symbol. -/
def frame_define (st : Store) (addr : Nat) (symv val : SValue) : Except Err Store :=
  match symv with
  | .sym s =>
    match storeGet st addr with
    | none => .error .hostCrash
    | some fr => .ok (storeSet st addr ⟨bindingsInsert fr.bindings s val, fr.parent⟩)
  | _ => .error .badVariableName

/-- The binding loop of `Frame.make_call_frame`: walk `formals` and `vals`
pairwise; stop when both are exhausted simultaneously, raise the
`parameter mismatch` error when only one is, and crash (Python
`AttributeError` on `.first`) when a non-nil non-pair is reached on both
sides. -/
def make_call_frame_loop : SValue → SValue → Nat → Store → Except Err Unit × Store
  | .nil, .nil, _, st => (.ok (), st)
  | .nil, _, _, st => (.error .parameterMismatch, st)
  | _, .nil, _, st => (.error .parameterMismatch, st)
  | .pair f fs, .pair v vs, addr, st =>
    match frame_define st addr f v with
    | .error e => (.error e, st)
    | .ok st' => make_call_frame_loop fs vs addr st'
  | _, _, _, st => (.error .hostCrash, st)

/-- `Frame.make_call_frame(formals, vals)`: append a fresh frame whose
parent is the receiver, then bind formals to values positionally.  On
success the new frame's index is returned; on failure the partially
filled frame stays in the store (in Python it becomes unreachable
garbage). -/
def make_call_frame (st : Store) (selfAddr : Nat) (formals vals : SValue) :
    Except Err Nat × Store :=
  let addr := st.length
  let st1 := st ++ [⟨[], some selfAddr⟩]
  match make_call_frame_loop formals vals addr st1 with
  | (.ok _, st') => (.ok addr, st')
  | (.error e, st') => (.error e, st')

/-- `check_form(expr, min, max)`: proper list of length at least `min`
and (when given) at most `max`. -/
def check_form (expr : SValue) (min : Nat) (max : Option Nat) : Except Err Unit :=
  if scheme_listp expr then
    if slistLength expr < min then .error .tooFewOperands
    else
      match max with
      | some m => if m < slistLength expr then .error .tooManyOperands else .ok ()
      | none => .ok ()
  else .error .badlyFormedExpression

/-- The `while` loop of `check_formals`, with the set of symbols seen so
far.  The duplicate test precedes the symbol test, exactly as in the
source; reaching a non-nil non-pair tail is a Python `AttributeError`. -/
def check_formals_aux (seen : List SValue) : SValue → Except Err Unit
  | .nil => .ok ()
  | .pair f rest =>
    if f ∈ seen then .error (.duplicateFormal f)
    else if scheme_symbolp f then check_formals_aux (f :: seen) rest
    else .error (.invalidFormal f)
  | _ => .error .hostCrash

/-- `check_formals(formals)`: a Scheme list of distinct symbols. -/
def check_formals (formals : SValue) : Except Err Unit :=
  check_formals_aux [] formals

/-- Modelled from the spec: the primitive-procedure library ("arithmetic,
list operations, I/O") is an external collaborator not present under
`src/`.  We model a minimal pure host table — index 0 is numeric
addition — a host `TypeError` (wrong argument type) becoming the
`CallError` of spec section 7. -/
def primAdd : List SValue → Except Err Int
  | [] => .ok 0
  | .num n :: rest => (primAdd rest).map (fun m => n + m)
  | _ => .error .callError

/-- Modelled from the spec: the host table of primitive procedures. -/
def primTable : Nat → List SValue → Except Err SValue
  | 0, args => (primAdd args).map SValue.num
  | _, _ => .error .callError

/-- `list_from_pair`: a Scheme argument list as a host list; improper
lists crash (`AttributeError` on `.first`). -/
def list_from_pair : SValue → Except Err (List SValue)
  | .nil => .ok []
  | .pair a rest => (list_from_pair rest).map (fun l => a :: l)
  | _ => .error .hostCrash

/-- `apply_primitive(procedure, args, env)`: convert the Scheme list and
invoke the host table.  The modelled primitives are pure, so the
env-aware flag does not change the store. -/
def apply_primitive (id : Nat) (_useEnv : Bool) (args : SValue) (_env : Nat)
    (st : Store) : Except Err SValue × Store :=
  match list_from_pair args with
  | .error e => (.error e, st)
  | .ok l => (primTable id l, st)

/-- Result of one evaluation: `none` when the fuel ran out, otherwise the
value-or-error together with the store. -/
abbrev EvalRes := Option (Except Err SValue × Store)

/-- The type of an evaluator (`scheme_eval` with its fuel fixed). -/
abbrev EvalFn := SValue → Nat → Store → EvalRes

/-- `do_lambda_form(vals, env)`: `(formals body...)`, formals validated, a
multi-expression body wrapped in `begin`, capturing `env`. -/
def do_lambda_form (vals : SValue) (env : Nat) : Except Err SValue :=
  match check_form vals 2 none with
  | .error e => .error e
  | .ok _ =>
    match vals with
    | .pair formals rest =>
      match check_formals formals with
      | .error e => .error e
      | .ok _ =>
        match rest with
        | .pair b .nil => .ok (.lambdaP formals b env)
        | .pair _ _ => .ok (.lambdaP formals (.pair (.sym "begin") rest) env)
        | _ => .error .hostCrash
    | _ => .error .hostCrash

/-- `do_mu_form(vals)`: like `lambda` but capturing no environment. -/
def do_mu_form (vals : SValue) : Except Err SValue :=
  match check_form vals 2 none with
  | .error e => .error e
  | .ok _ =>
    match vals with
    | .pair formals rest =>
      match check_formals formals with
      | .error e => .error e
      | .ok _ =>
        match rest with
        | .pair b .nil => .ok (.muP formals b)
        | .pair _ _ => .ok (.muP formals (.pair (.sym "begin") rest))
        | _ => .error .hostCrash
    | _ => .error .hostCrash

/-- `do_quote_form(vals)`: exactly one operand, returned unevaluated. -/
def do_quote_form (vals : SValue) : Except Err SValue :=
  match check_form vals 1 (some 1) with
  | .error e => .error e
  | .ok _ =>
    match vals with
    | .pair v _ => .ok v
    | _ => .error .hostCrash

/-- `do_define_form(vals, env)`: symbol target — exactly two operands,
evaluate the value in `env`, bind, return the symbol; pair target — the
procedure shorthand, an equivalent `lambda` bound under the name; any
other target is the `bad argument to define` error. -/
def do_define_form (ev : EvalFn) (vals : SValue) (env : Nat) (st : Store) : EvalRes :=
  match check_form vals 2 none with
  | .error e => some (.error e, st)
  | .ok _ =>
    match vals with
    | .pair target rest1 =>
      if scheme_symbolp target then
        match check_form vals 2 (some 2) with
        | .error e => some (.error e, st)
        | .ok _ =>
          match rest1 with
          | .pair vexpr _ =>
            match ev vexpr env st with
            | none => none
            | some (.error e, st1) => some (.error e, st1)
            | some (.ok v, st1) =>
              match frame_define st1 env target v with
              | .error e => some (.error e, st1)
              | .ok st2 => some (.ok target, st2)
          | _ => some (.error .hostCrash, st)
      else
        match target with
        | .pair name formals =>
          match do_lambda_form (.pair formals rest1) env with
          | .error e => some (.error e, st)
          | .ok f =>
            match frame_define st env name f with
            | .error e => some (.error e, st)
            | .ok st1 => some (.ok name, st1)
        | _ => some (.error .badDefineTarget, st)
    | _ => some (.error .hostCrash, st)

/-- `do_if_form(vals, env)`: evaluate the test; return the consequent or
the alternate (the `okay` sentinel when the alternate is absent —
Python's caught `IndexError`) unevaluated, for tail-position
re-evaluation. -/
def do_if_form (ev : EvalFn) (vals : SValue) (env : Nat) (st : Store) : EvalRes :=
  match check_form vals 2 (some 3) with
  | .error e => some (.error e, st)
  | .ok _ =>
    match vals with
    | .pair test rest =>
      match ev test env st with
      | none => none
      | some (.error e, st1) => some (.error e, st1)
      | some (.ok v, st1) =>
        if scheme_true v then
          match rest with
          | .pair conseq _ => some (.ok conseq, st1)
          | _ => some (.error .hostCrash, st1)
        else
          match rest with
          | .pair _ (.pair alt _) => some (.ok alt, st1)
          | .pair _ .nil => some (.ok .okay, st1)
          | _ => some (.error .hostCrash, st1)
    | _ => some (.error .hostCrash, st)

/-- The `for` loop of `do_and_form`: evaluate operands left to right,
return `False` at the first false value, else the quoted last value. -/
def andLoop (ev : EvalFn) (env : Nat) : SValue → List SValue → Store → EvalRes
  | e, rest, st =>
    match ev e env st with
    | none => none
    | some (.error er, st1) => some (.error er, st1)
    | some (.ok test, st1) =>
      if scheme_false test then some (.ok (.boolean false), st1)
      else
        match rest with
        | [] => some (.ok (quote test), st1)
        | e' :: rest' => andLoop ev env e' rest' st1

/-- `do_and_form(vals, env)`: no operands is `True`; `len` on an improper
operand list is a host `TypeError` (unreachable from `scheme_eval`,
which has already checked the whole form is a proper list). -/
def do_and_form (ev : EvalFn) (vals : SValue) (env : Nat) (st : Store) : EvalRes :=
  match toList vals with
  | none => some (.error .hostCrash, st)
  | some [] => some (.ok (.boolean true), st)
  | some (e :: rest) => andLoop ev env e rest st

/-- The `for` loop of `do_or_form`: evaluate all but the last operand,
return the first true value quoted; else the last operand unevaluated
(tail position). -/
def orLoop (ev : EvalFn) (env : Nat) : SValue → List SValue → Store → EvalRes
  | last, [], st => some (.ok last, st)
  | e, e' :: rest, st =>
    match ev e env st with
    | none => none
    | some (.error er, st1) => some (.error er, st1)
    | some (.ok test, st1) =>
      if scheme_true test then some (.ok (quote test), st1)
      else orLoop ev env e' rest st1

/-- `do_or_form(vals, env)`: no operands is `False`. -/
def do_or_form (ev : EvalFn) (vals : SValue) (env : Nat) (st : Store) : EvalRes :=
  match toList vals with
  | none => some (.error .hostCrash, st)
  | some [] => some (.ok (.boolean false), st)
  | some (e :: rest) => orLoop ev env e rest st

/-- The clause result of `do_cond_form` once a clause's test is true: no
body means the quoted test value, one body expression is returned as is,
several are wrapped in `begin`. -/
def condClauseResult (test : SValue) (cs : SValue) : Except Err SValue :=
  match cs with
  | .nil => .ok (quote test)
  | .pair e .nil => .ok e
  | .pair e (.pair f r) => .ok (.pair (.sym "begin") (.pair e (.pair f r)))
  | _ => .error .hostCrash

/-- The clause loop of `do_cond_form`: clauses are examined in order; an
`else` clause is checked (last position, non-empty body) only when it is
reached; a true test short-circuits; no match yields `okay`. -/
def condLoop (ev : EvalFn) (env : Nat) : List SValue → Store → EvalRes
  | [], st => some (.ok .okay, st)
  | clause :: rest, st =>
    match check_form clause 1 none with
    | .error e => some (.error e, st)
    | .ok _ =>
      match clause with
      | .pair cf cs =>
        if cf = .sym "else" then
          if rest = [] then
            if cs = .nil then some (.error .badElseClause, st)
            else
              match condClauseResult (.boolean true) cs with
              | .ok e => some (.ok e, st)
              | .error er => some (.error er, st)
          else some (.error .elseNotLast, st)
        else
          match ev cf env st with
          | none => none
          | some (.error er, st1) => some (.error er, st1)
          | some (.ok test, st1) =>
            if scheme_true test then
              match condClauseResult test cs with
              | .ok e => some (.ok e, st1)
              | .error er => some (.error er, st1)
            else condLoop ev env rest st1
      | _ => some (.error .hostCrash, st)

/-- `do_cond_form(vals, env)`. -/
def do_cond_form (ev : EvalFn) (vals : SValue) (env : Nat) (st : Store) : EvalRes :=
  match toList vals with
  | none => some (.error .hostCrash, st)
  | some clauses => condLoop ev env clauses st

/-- The `while` loop of `do_begin_form`: evaluate every operand in order
and return the quoted value of the last one. -/
def beginLoop (ev : EvalFn) (env : Nat) : SValue → List SValue → Store → EvalRes
  | e, [], st =>
    match ev e env st with
    | none => none
    | some (.error er, st1) => some (.error er, st1)
    | some (.ok v, st1) => some (.ok (quote v), st1)
  | e, e' :: rest, st =>
    match ev e env st with
    | none => none
    | some (.error er, st1) => some (.error er, st1)
    | some (.ok _, st1) => beginLoop ev env e' rest st1

/-- `do_begin_form(vals, env)`: at least one operand. -/
def do_begin_form (ev : EvalFn) (vals : SValue) (env : Nat) (st : Store) : EvalRes :=
  match check_form vals 1 none with
  | .error e => some (.error e, st)
  | .ok _ =>
    match toList vals with
    | some (e :: rest) => beginLoop ev env e rest st
    | _ => some (.error .hostCrash, st)

/-- The binding loop of `do_let_form`: for each `(name value-expr ...)`
pair, evaluate the value expression in the *outer* `env` and define the
name in the new frame.  A non-pair binding entry or a pair whose second
element is missing/improper is a host-level failure in Python (string
indexing / `IndexError` / `TypeError`); we model all of those as
`hostCrash`. -/
def letBindLoop (ev : EvalFn) (env newAddr : Nat) : List SValue → Store → Option (Except Err Unit × Store)
  | [], st => some (.ok (), st)
  | b :: bs, st =>
    match b with
    | .pair name (.pair vexpr _) =>
      match ev vexpr env st with
      | none => none
      | some (.error e, st1) => some (.error e, st1)
      | some (.ok v, st1) =>
        match frame_define st1 newAddr name v with
        | .error e => some (.error e, st1)
        | .ok st2 => letBindLoop ev env newAddr bs st2
    | _ => some (.error .hostCrash, st)

/-- The body loop of `do_let_form`: evaluate all but the last body
expression in the new frame, then return the last one (with the new
frame) for tail-position re-evaluation. -/
def letBodyLoop (ev : EvalFn) (newAddr : Nat) : SValue → List SValue → Store → Option (Except Err (SValue × Nat) × Store)
  | last, [], st => some (.ok (last, newAddr), st)
  | e, e' :: rest, st =>
    match ev e newAddr st with
    | none => none
    | some (.error er, st1) => some (.error er, st1)
    | some (.ok _, st1) => letBodyLoop ev newAddr e' rest st1

/-- `do_let_form(vals, env)`: a bindings list and at least one body
expression; a fresh frame is created as a child of `env`, each binding's
value expression is evaluated against the original `env`, and the last
body expression is returned with the new frame. -/
def do_let_form (ev : EvalFn) (vals : SValue) (env : Nat) (st : Store) : Option (Except Err (SValue × Nat) × Store) :=
  match check_form vals 2 none with
  | .error e => some (.error e, st)
  | .ok _ =>
    match vals with
    | .pair bindings exprs =>
      if scheme_listp bindings then
        match make_call_frame st env .nil .nil with
        | (.ok newAddr, st1) =>
          match toList bindings with
          | none => some (.error .hostCrash, st1)
          | some bs =>
            match letBindLoop ev env newAddr bs st1 with
            | none => none
            | some (.error e, st2) => some (.error e, st2)
            | some (.ok _, st2) =>
              match toList exprs with
              | some (e :: rest) => letBodyLoop ev newAddr e rest st2
              | _ => some (.error .hostCrash, st2)
        | (.error e, st1) => some (.error e, st1)
      else some (.error .badBindingsList, st)
    | _ => some (.error .hostCrash, st)

/-- Whether `first` is a symbol naming one of the `LOGIC_FORMS`. -/
def isLogicSym : SValue → Bool
  | .sym s => s == "and" || s == "or" || s == "if" || s == "cond" || s == "begin"
  | _ => false

/-- The `LOGIC_FORMS` dict: dispatch a control form to its handler. -/
def logicDispatch (ev : EvalFn) (first vals : SValue) (env : Nat) (st : Store) : EvalRes :=
  match first with
  | .sym "and" => do_and_form ev vals env st
  | .sym "or" => do_or_form ev vals env st
  | .sym "if" => do_if_form ev vals env st
  | .sym "cond" => do_cond_form ev vals env st
  | .sym "begin" => do_begin_form ev vals env st
  | _ => some (.error .hostCrash, st)

/-- `rest.map(lambda operand: scheme_eval(operand, env))`: evaluate the
operands left to right, threading the store. -/
def evalOperands (ev : EvalFn) : SValue → Nat → Store → EvalRes
  | .nil, _, st => some (.ok .nil, st)
  | .pair e rest, env, st =>
    match ev e env st with
    | none => none
    | some (.error er, st1) => some (.error er, st1)
    | some (.ok v, st1) =>
      match evalOperands ev rest env st1 with
      | none => none
      | some (.error er, st2) => some (.error er, st2)
      | some (.ok vs, st2) => some (.ok (.pair v vs), st2)
  | _, _, st => some (.error .hostCrash, st)

/-- `scheme_apply(procedure, args, env)`: primitives through the host
table; a `LambdaProcedure` evaluates its body in a call frame whose
parent is the procedure's captured `procedure.env`; a `MuProcedure`
evaluates its body in a call frame whose parent is the caller's `env`;
anything else is the `Cannot call` error. -/
def scheme_apply (ev : EvalFn) (procedure args : SValue) (env : Nat) (st : Store) : EvalRes :=
  match procedure with
  | .prim id useEnv => some (apply_primitive id useEnv args env st)
  | .lambdaP formals body penv =>
    match make_call_frame st penv formals args with
    | (.ok addr, st1) => ev body addr st1
    | (.error e, st1) => some (.error e, st1)
  | .muP formals body =>
    match make_call_frame st env formals args with
    | (.ok addr, st1) => ev body addr st1
    | (.error e, st1) => some (.error e, st1)
  | _ => some (.error .notCallable, st)

/-- One dispatch step of the naive `scheme_eval`, with the evaluator used
for every nested evaluation passed as `ev`.  The branch order follows
the source: symbols, self-evaluating values, the proper-list check
(`nil` then slips through Python's check and crashes on `.first`), the
`LOGIC_FORMS`, `lambda`, `mu`, `define`, `quote`, `let`, and finally
generic application. -/
def scheme_evalStep (ev : EvalFn) : SValue → Nat → Store → EvalRes
  | .sym s, env, st => some (frame_lookup st env s, st)
  | .num n, _, st => some (.ok (.num n), st)
  | .boolean b, _, st => some (.ok (.boolean b), st)
  | .strv s, _, st => some (.ok (.strv s), st)
  | .okay, _, st => some (.ok .okay, st)
  | .nil, _, st => some (.error .hostCrash, st)
  | .prim _ _, _, st => some (.error .malformedList, st)
  | .lambdaP _ _ _, _, st => some (.error .malformedList, st)
  | .muP _ _, _, st => some (.error .malformedList, st)
  | .pair first rest, env, st =>
    if isLogicSym first then
      match logicDispatch ev first rest env st with
      | none => none
      | some (.error e, st1) => some (.error e, st1)
      | some (.ok expr2, st1) => ev expr2 env st1
    else if first = .sym "lambda" then
      some (do_lambda_form rest env, st)
    else if first = .sym "mu" then
      some (do_mu_form rest, st)
    else if first = .sym "define" then
      do_define_form ev rest env st
    else if first = .sym "quote" then
      some (do_quote_form rest, st)
    else if first = .sym "let" then
      match do_let_form ev rest env st with
      | none => none
      | some (.error e, st1) => some (.error e, st1)
      | some (.ok (expr2, env2), st1) => ev expr2 env2 st1
    else
      match ev first env st with
      | none => none
      | some (.error e, st1) => some (.error e, st1)
      | some (.ok procVal, st1) =>
        match evalOperands ev rest env st1 with
        | none => none
        | some (.error e, st2) => some (.error e, st2)
        | some (.ok args, st2) => scheme_apply ev procVal args env st2

/-- `scheme_eval(expr, env)`, made total by fuel: at fuel `n + 1` one
dispatch step runs, with every nested evaluation at fuel `n`. -/
def scheme_eval : Nat → EvalFn
  | 0 => fun _ _ _ => none
  | fuel + 1 => scheme_evalStep (scheme_eval fuel)

/-- One iteration of the `while True` loop of `scheme_optimized_eval`:
identical to `scheme_evalStep` except that every genuine tail position —
the result of a control form, a `let` body, and the body of an applied
`LambdaProcedure`/`MuProcedure` — goes through `tailEv` (the loop)
instead of the recursive evaluator, while non-tail evaluations
(handlers' internals, operator and operand evaluation) still use the
naive `scheme_eval`, exactly as in the source. -/
def scheme_optimized_evalStep (tailEv ev : EvalFn) : SValue → Nat → Store → EvalRes
  | .sym s, env, st => some (frame_lookup st env s, st)
  | .num n, _, st => some (.ok (.num n), st)
  | .boolean b, _, st => some (.ok (.boolean b), st)
  | .strv s, _, st => some (.ok (.strv s), st)
  | .okay, _, st => some (.ok .okay, st)
  | .nil, _, st => some (.error .hostCrash, st)
  | .prim _ _, _, st => some (.error .malformedList, st)
  | .lambdaP _ _ _, _, st => some (.error .malformedList, st)
  | .muP _ _, _, st => some (.error .malformedList, st)
  | .pair first rest, env, st =>
    if isLogicSym first then
      match logicDispatch ev first rest env st with
      | none => none
      | some (.error e, st1) => some (.error e, st1)
      | some (.ok expr2, st1) => tailEv expr2 env st1
    else if first = .sym "lambda" then
      some (do_lambda_form rest env, st)
    else if first = .sym "mu" then
      some (do_mu_form rest, st)
    else if first = .sym "define" then
      do_define_form ev rest env st
    else if first = .sym "quote" then
      some (do_quote_form rest, st)
    else if first = .sym "let" then
      match do_let_form ev rest env st with
      | none => none
      | some (.error e, st1) => some (.error e, st1)
      | some (.ok (expr2, env2), st1) => tailEv expr2 env2 st1
    else
      match ev first env st with
      | none => none
      | some (.error e, st1) => some (.error e, st1)
      | some (.ok procVal, st1) =>
        match evalOperands ev rest env st1 with
        | none => none
        | some (.error e, st2) => some (.error e, st2)
        | some (.ok args, st2) =>
          match procVal with
          | .prim id useEnv => some (apply_primitive id useEnv args env st2)
          | .lambdaP formals body penv =>
            match make_call_frame st2 penv formals args with
            | (.ok addr, st3) => tailEv body addr st3
            | (.error e, st3) => some (.error e, st3)
          | .muP formals body =>
            match make_call_frame st2 env formals args with
            | (.ok addr, st3) => tailEv body addr st3
            | (.error e, st3) => some (.error e, st3)
          | _ => some (.error .notCallable, st2)

/-- `scheme_optimized_eval(expr, env)`, made total by fuel: one loop
iteration per unit of fuel, the nested (non-tail) evaluations running
the naive `scheme_eval` at the remaining fuel, as in the source where
the module-level alias is left commented out. -/
def scheme_optimized_eval : Nat → EvalFn
  | 0 => fun _ _ _ => none
  | fuel + 1 => scheme_optimized_evalStep (scheme_optimized_eval fuel) (scheme_eval fuel)

end SchemeEmu

namespace SchemeEmu

/-! ## Equivalence of the two evaluators -/

/-- One loop iteration of the optimized evaluator, with the loop
continuation equal to the nested evaluator, is exactly one naive
dispatch step: all non-tail work is shared verbatim, and the inlined
application branch coincides with `scheme_apply`. -/
theorem optStep_eq_evalStep (ev : EvalFn) (e : SValue) (env : Nat) (st : Store) :
    scheme_optimized_evalStep ev ev e env st = scheme_evalStep ev e env st := by
  cases e <;> rfl

/-- At every fuel bound the two evaluators are the same function. -/
theorem opt_eval_eq_eval : ∀ fuel : Nat, scheme_optimized_eval fuel = scheme_eval fuel
  | 0 => rfl
  | fuel + 1 => by
    show scheme_optimized_evalStep (scheme_optimized_eval fuel) (scheme_eval fuel) =
      scheme_evalStep (scheme_eval fuel)
    rw [opt_eval_eq_eval fuel]
    funext e env st
    exact optStep_eq_evalStep (scheme_eval fuel) e env st

/-- C1: for every expression, environment, store and fuel bound, the
tail-call-preserving evaluator `scheme_optimized_eval` produces exactly
the same outcome as the naive `scheme_eval` — the same value or the same
error with the same resulting store, and fuel exhaustion on one exactly
when on the other.  In particular, whenever the naive evaluator
terminates (with a value or with a `SchemeError`), the optimized
evaluator produces the identical result. -/
theorem C1_optimized_eval_agrees_with_eval (fuel : Nat) (expr : SValue) (env : Nat)
    (st : Store) : scheme_optimized_eval fuel expr env st = scheme_eval fuel expr env st := by
  rw [opt_eval_eq_eval fuel]

end SchemeEmu

namespace SchemeEmu

/-! ## List view lemmas -/

/-- `toList` inverts `ofList`. -/
theorem toList_ofList : ∀ l : List SValue, toList (ofList l) = some l
  | [] => rfl
  | _ :: rest => by simp [ofList, toList, toList_ofList rest]

/-- `ofList` builds proper lists. -/
theorem scheme_listp_ofList : ∀ l : List SValue, scheme_listp (ofList l) = true
  | [] => rfl
  | _ :: rest => by simp [ofList, scheme_listp, scheme_listp_ofList rest]

/-- Length of an `ofList` list. -/
theorem slistLength_ofList : ∀ l : List SValue, slistLength (ofList l) = l.length
  | [] => rfl
  | _ :: rest => by simp [ofList, slistLength, slistLength_ofList rest]

/-! ## Claim C2: lexical Lambda versus dynamic Mu -/

/-- C2: applying a `LambdaProcedure` builds the call frame as a child of
the procedure's captured defining environment — the caller's `env` is
irrelevant (first conjunct, lexical scope) — while applying a
`MuProcedure` builds it as a child of the caller's `env`: a Mu applied
from `env` behaves exactly like a Lambda that had captured `env` (second
conjunct, dynamic scope).  Consequently (third conjunct), a Lambda
captured in frame 1 (where `z` is 1) but applied from frame 2 (where
`z` is 2) returns 1, while the otherwise-identical Mu applied from the
same frame 2 returns 2, and the two results differ. -/
theorem C2_lambda_lexical_mu_dynamic :
    (∀ (ev : EvalFn) (formals body : SValue) (penv : Nat) (args : SValue)
        (env env' : Nat) (st : Store),
      scheme_apply ev (.lambdaP formals body penv) args env st
        = scheme_apply ev (.lambdaP formals body penv) args env' st)
    ∧ (∀ (ev : EvalFn) (formals body args : SValue) (env env' : Nat) (st : Store),
      scheme_apply ev (.muP formals body) args env st
        = scheme_apply ev (.lambdaP formals body env) args env' st)
    ∧ (scheme_apply (scheme_eval 1) (.lambdaP .nil (.sym "z") 1) .nil 2
          [⟨[], none⟩, ⟨[("z", .num 1)], some 0⟩, ⟨[("z", .num 2)], some 0⟩]
        = some (.ok (.num 1),
            [⟨[], none⟩, ⟨[("z", .num 1)], some 0⟩, ⟨[("z", .num 2)], some 0⟩, ⟨[], some 1⟩])
      ∧ scheme_apply (scheme_eval 1) (.muP .nil (.sym "z")) .nil 2
          [⟨[], none⟩, ⟨[("z", .num 1)], some 0⟩, ⟨[("z", .num 2)], some 0⟩]
        = some (.ok (.num 2),
            [⟨[], none⟩, ⟨[("z", .num 1)], some 0⟩, ⟨[("z", .num 2)], some 0⟩, ⟨[], some 2⟩])
      ∧ (SValue.num 1) ≠ (SValue.num 2)) :=
  ⟨fun _ _ _ _ _ _ _ _ => rfl, fun _ _ _ _ _ _ _ => rfl, rfl, rfl, by decide⟩

/-! ## Claim C9: quotation round-trips -/

/-- C9: for every Scheme value `v`, every environment and every store,
evaluating the expression built by `quote(v)`, i.e. the list
`(quote v)`, returns exactly `v`, leaves the store unchanged, never
consults the environment (the frame index is arbitrary, possibly
dangling) and never raises — even when `v` is an unbound symbol or a
list whose head names a special form. -/
theorem C9_quote_roundtrip (fuel env : Nat) (v : SValue) (st : Store) :
    scheme_eval (fuel + 1) (quote v) env st = some (.ok v, st) := rfl

/-! ## Claim C5: the short-circuit forms and / or -/

/-- C5: in every environment and store, and at every sufficient fuel
bound: `(and)` evaluates to true and `(or)` to false; `(and 1 2 3)`
evaluates to 3 (the last operand's value), `(or #f #f 5)` to 5 and
`(and 1 #f 3)` to false; moreover the last two conjuncts show the
short-circuit property: `and` yields false at the first false operand
and `or` yields the first true value, whatever operands follow (the
trailing operands are arbitrary and never evaluated). -/
theorem C5_and_or_short_circuit (f env : Nat) (st : Store) :
    scheme_eval (f + 2) (ofList [.sym "and"]) env st = some (.ok (.boolean true), st)
    ∧ scheme_eval (f + 2) (ofList [.sym "or"]) env st = some (.ok (.boolean false), st)
    ∧ scheme_eval (f + 2) (ofList [.sym "and", .num 1, .num 2, .num 3]) env st
        = some (.ok (.num 3), st)
    ∧ scheme_eval (f + 2) (ofList [.sym "or", .boolean false, .boolean false, .num 5]) env st
        = some (.ok (.num 5), st)
    ∧ scheme_eval (f + 2) (ofList [.sym "and", .num 1, .boolean false, .num 3]) env st
        = some (.ok (.boolean false), st)
    ∧ (∀ rest : List SValue,
        scheme_eval (f + 2) (.pair (.sym "and") (.pair (.num 1) (.pair (.boolean false) (ofList rest)))) env st
          = some (.ok (.boolean false), st))
    ∧ (∀ rest : List SValue,
        scheme_eval (f + 2) (.pair (.sym "or") (.pair (.boolean false) (.pair (.num 5) (ofList rest)))) env st
          = some (.ok (.num 5), st)) := by
  refine ⟨rfl, rfl, rfl, rfl, rfl, ?_, ?_⟩
  · intro rest
    have htl := toList_ofList rest
    simp [scheme_eval, scheme_evalStep, logicDispatch, do_and_form, toList, htl, andLoop,
      isLogicSym, scheme_false, quote]
  · intro rest
    cases rest with
    | nil => rfl
    | cons r rs =>
      have htl := toList_ofList rs
      simp [scheme_eval, scheme_evalStep, logicDispatch, do_or_form, toList, htl, orLoop,
        isLogicSym, scheme_true, scheme_false, quote, do_quote_form, check_form, scheme_listp,
        slistLength]

/-! ## Claim C7: the begin form -/

/-- C7: `(begin)` fails with the too-few-operands error in every
environment; a symbol-valued result is wrapped as already final and is
not looked up again — `(begin (quote s))` returns the symbol `s` itself
for every name `s`, every environment and every store, unchanged;
`(begin 1 2 3)` yields exactly the value of the last operand; and the
operands before the last are evaluated eagerly in order for their
effects — `(begin (define x 1) x)` performs the definition first and
then yields 1. -/
theorem C7_begin_form (f env : Nat) (st : Store) (s : String) :
    scheme_eval (f + 1) (ofList [.sym "begin"]) env st = some (.error .tooFewOperands, st)
    ∧ scheme_eval (f + 3) (ofList [.sym "begin", ofList [.sym "quote", .sym s]]) env st
        = some (.ok (.sym s), st)
    ∧ scheme_eval (f + 2) (ofList [.sym "begin", .num 1, .num 2, .num 3]) env st
        = some (.ok (.num 3), st)
    ∧ scheme_eval 6 (ofList [.sym "begin", ofList [.sym "define", .sym "x", .num 1], .sym "x"])
          0 [⟨[], none⟩]
        = some (.ok (.num 1), [⟨[("x", .num 1)], none⟩]) :=
  ⟨rfl, rfl, rfl, rfl⟩

end SchemeEmu

namespace SchemeEmu

/-! ## Frame store lemmas -/

/-- Reading an index that exists is unaffected by appending frames. -/
theorem storeGet_append_left : ∀ (st : Store) (n : Nat) (fr : FrameData) (l : Store),
    storeGet st n = some fr → storeGet (st ++ l) n = some fr
  | [], n, _, _, h => by simp [storeGet] at h
  | f :: rest, 0, fr, l, h => by simpa [storeGet] using h
  | f :: rest, n + 1, fr, l, h => by
    simpa [storeGet] using storeGet_append_left rest n fr l (by simpa [storeGet] using h)

/-- Reading the frame just appended. -/
theorem storeGet_concat_self : ∀ (st : Store) (fr : FrameData),
    storeGet (st ++ [fr]) st.length = some fr
  | [], _ => rfl
  | f :: rest, fr => by simpa [storeGet] using storeGet_concat_self rest fr

/-- Writing the frame just appended. -/
theorem storeSet_concat_self : ∀ (st : Store) (fr fr' : FrameData),
    storeSet (st ++ [fr]) st.length fr' = st ++ [fr']
  | [], _, _ => rfl
  | f :: rest, fr, fr' => by simpa [storeSet] using storeSet_concat_self rest fr fr'

/-- A parent-chain walk that does not crash only visits existing frames,
so appending frames to the store does not change its result. -/
theorem frame_lookupAux_append (st l : Store) (s : String) : ∀ (bound a : Nat),
    frame_lookupAux st bound a s ≠ .error .hostCrash →
    frame_lookupAux (st ++ l) bound a s = frame_lookupAux st bound a s
  | 0, a, h => absurd rfl h
  | bound + 1, a, h => by
    unfold frame_lookupAux at h ⊢
    cases hg : storeGet st a with
    | none => rw [hg] at h; exact absurd rfl h
    | some fr =>
      rw [storeGet_append_left st a fr l hg]
      simp only [hg] at h ⊢
      cases hb : bindingsGet fr.bindings s with
      | some v => simp only [hb]
      | none =>
        simp only [hb] at h ⊢
        cases hp : fr.parent with
        | none => simp only [hp]
        | some p =>
          simp only [hp] at h ⊢
          exact frame_lookupAux_append st l s bound p h

/-- `Frame.lookup` is unaffected by appending fresh frames, as long as it
does not crash on the original store. -/
theorem frame_lookup_append (st l : Store) (a : Nat) (s : String)
    (h : frame_lookup st a s ≠ .error .hostCrash) :
    frame_lookup (st ++ l) a s = frame_lookup st a s :=
  frame_lookupAux_append st l s (a + 1) a h

/-! ## Claim C6 (corrected): cond and its else clause -/

/-- Counterexample to C6 as stated: in `(cond (#t 1) (else 2) (#t 3))`
the `else` clause is not the final clause, yet evaluation does not fail
with a malformed-else error — the first clause's true test returns 1
before the `else` clause is ever examined. -/
theorem C6_counterexample :
    scheme_eval 5 (ofList [.sym "cond", ofList [.boolean true, .num 1],
        ofList [.sym "else", .num 2], ofList [.boolean true, .num 3]]) 0 [⟨[], none⟩]
      = some (.ok (.num 1), [⟨[], none⟩]) := rfl

/-- C6 (amended): clauses are examined left to right, and the `else`
checks fire only when the `else` clause is reached (no earlier clause's
test was true).  A reached non-final `else` clause fails with the
else-must-be-last error whatever its body `bs` and whatever follows it
(first conjunct, with a preceding false clause); a reached final `else`
clause with no body expressions fails with the badly-formed-else error
(second conjunct); and the well-formed `(cond (#f 1) (else 2 3))`
evaluates to 3 (third conjunct). -/
theorem C6_cond_else_amended (f env : Nat) (st : Store) :
    (∀ (bs : List SValue) (r1 : SValue) (rs : List SValue),
      scheme_eval (f + 2) (ofList (.sym "cond" :: ofList [.boolean false, .num 1]
          :: ofList (.sym "else" :: bs) :: r1 :: rs)) env st
        = some (.error .elseNotLast, st))
    ∧ scheme_eval (f + 2) (ofList [.sym "cond", ofList [.boolean false, .num 1],
          ofList [.sym "else"]]) env st
        = some (.error .badElseClause, st)
    ∧ scheme_eval (f + 3) (ofList [.sym "cond", ofList [.boolean false, .num 1],
          ofList [.sym "else", .num 2, .num 3]]) env st
        = some (.ok (.num 3), st) := by
  refine ⟨?_, rfl, rfl⟩
  intro bs r1 rs
  have htl := toList_ofList rs
  have hbs := scheme_listp_ofList bs
  simp [scheme_eval, scheme_evalStep, logicDispatch, do_cond_form, toList, htl, condLoop,
    isLogicSym, scheme_true, scheme_false, check_form, scheme_listp, hbs, slistLength, ofList]

/-! ## Claim C3: let binds simultaneously -/

/-- C3: in `(let ((x 1) (y x)) y)` the binding expression for `y` is the
symbol `x`, and it is evaluated in the *outer* environment, not in the
frame receiving the new bindings.  First conjunct: whenever the outer
environment binds `x` to some `v`, the whole form evaluates to `v`
(sequential `let*` semantics would give 1), with the new frame holding
`x` bound to 1 and `y` to the outer `v`.  Second conjunct: whenever
`x` is unbound in the outer environment, evaluation fails with the
unbound-identifier error for `x`, raised while evaluating the binding
for `y` — after `x` has been defined to 1 in the (discarded) new frame,
proving the bindings are simultaneous, not sequential. -/
theorem C3_let_simultaneous (f env : Nat) (st : Store) :
    (∀ v : SValue, frame_lookup st env "x" = .ok v →
      scheme_eval (f + 2) (ofList [.sym "let",
          ofList [ofList [.sym "x", .num 1], ofList [.sym "y", .sym "x"]], .sym "y"]) env st
        = some (.ok v, st ++ [⟨[("x", .num 1), ("y", v)], some env⟩]))
    ∧ (frame_lookup st env "x" = .error (.unknownIdentifier "x") →
      scheme_eval (f + 2) (ofList [.sym "let",
          ofList [ofList [.sym "x", .num 1], ofList [.sym "y", .sym "x"]], .sym "y"]) env st
        = some (.error (.unknownIdentifier "x"), st ++ [⟨[("x", .num 1)], some env⟩])) := by
  constructor
  · intro v hok
    have hne : frame_lookup st env "x" ≠ .error .hostCrash := by rw [hok]; intro hc; cases hc
    have hl2 : frame_lookup (st ++ [(⟨[("x", SValue.num 1)], some env⟩ : FrameData)]) env "x"
        = .ok v := by rw [frame_lookup_append st _ env "x" hne, hok]
    have hy : frame_lookup (st ++ [(⟨[("x", SValue.num 1), ("y", v)], some env⟩ : FrameData)])
        st.length "y" = .ok v := by
      show frame_lookupAux _ (st.length + 1) st.length "y" = .ok v
      simp only [frame_lookupAux, storeGet_concat_self]
      simp [bindingsGet]
    simp [scheme_eval, scheme_evalStep, logicDispatch, do_let_form, toList, check_form,
      scheme_listp, slistLength, isLogicSym, ofList, make_call_frame, make_call_frame_loop,
      letBindLoop, letBodyLoop, frame_define, storeGet_concat_self, storeSet_concat_self,
      bindingsInsert, hl2, hy]
  · intro hunb
    have hne : frame_lookup st env "x" ≠ .error .hostCrash := by rw [hunb]; intro hc; cases hc
    have hl2 : frame_lookup (st ++ [(⟨[("x", SValue.num 1)], some env⟩ : FrameData)]) env "x"
        = .error (.unknownIdentifier "x") := by rw [frame_lookup_append st _ env "x" hne, hunb]
    simp [scheme_eval, scheme_evalStep, logicDispatch, do_let_form, toList, check_form,
      scheme_listp, slistLength, isLogicSym, ofList, make_call_frame, make_call_frame_loop,
      letBindLoop, letBodyLoop, frame_define, storeGet_concat_self, storeSet_concat_self,
      bindingsInsert, hl2]

/-- Witness for C3 at concrete inputs: with a single empty global frame
(where `x` is unbound) the form fails with the unbound-identifier error
for `x`; with `x` globally bound to 42 it evaluates to 42. -/
theorem C3_witness :
    scheme_eval 7 (ofList [.sym "let",
        ofList [ofList [.sym "x", .num 1], ofList [.sym "y", .sym "x"]], .sym "y"]) 0 [⟨[], none⟩]
      = some (.error (.unknownIdentifier "x"), [⟨[], none⟩, ⟨[("x", .num 1)], some 0⟩])
    ∧ scheme_eval 7 (ofList [.sym "let",
        ofList [ofList [.sym "x", .num 1], ofList [.sym "y", .sym "x"]], .sym "y"]) 0
        [⟨[("x", .num 42)], none⟩]
      = some (.ok (.num 42),
          [⟨[("x", .num 42)], none⟩, ⟨[("x", .num 1), ("y", .num 42)], some 0⟩]) :=
  ⟨(C3_let_simultaneous 5 0 [⟨[], none⟩]).2 rfl,
   (C3_let_simultaneous 5 0 [⟨[("x", .num 42)], none⟩]).1 (.num 42) rfl⟩

end SchemeEmu

namespace SchemeEmu

/-! ## More store and bindings lemmas -/

/-- Reading an index just overwritten. -/
theorem storeGet_set_self : ∀ (st : Store) (n : Nat) (fr fr' : FrameData),
    storeGet st n = some fr → storeGet (storeSet st n fr') n = some fr'
  | [], n, _, _, h => by simp [storeGet] at h
  | f :: rest, 0, _, _, _ => rfl
  | f :: rest, n + 1, fr, fr', h => by
    simpa [storeGet, storeSet] using storeGet_set_self rest n fr fr' (by simpa [storeGet] using h)

/-- Consecutive writes to the same index collapse. -/
theorem storeSet_storeSet : ∀ (st : Store) (n : Nat) (a b : FrameData),
    storeSet (storeSet st n a) n b = storeSet st n b
  | [], _, _, _ => rfl
  | f :: rest, 0, _, _ => rfl
  | f :: rest, n + 1, a, b => by simp [storeSet, storeSet_storeSet rest n a b]

/-- Writing back the frame that is already there is the identity. -/
theorem storeSet_self : ∀ (st : Store) (n : Nat) (fr : FrameData),
    storeGet st n = some fr → storeSet st n fr = st
  | [], n, _, h => by simp [storeGet] at h
  | f :: rest, 0, fr, h => by
    simp [storeGet] at h
    simp [storeSet, h]
  | f :: rest, n + 1, fr, h => by
    simp [storeSet, storeSet_self rest n fr (by simpa [storeGet] using h)]

/-- A key absent from the first association list is looked up in the
second. -/
theorem bindingsGet_append_of_none : ∀ (bs cs : List (String × SValue)) (s : String),
    bindingsGet bs s = none → bindingsGet (bs ++ cs) s = bindingsGet cs s
  | [], cs, s, _ => rfl
  | (k, w) :: rest, cs, s, h => by
    by_cases hk : k = s
    · simp [bindingsGet, hk] at h
    · simp [bindingsGet, hk] at h ⊢
      exact bindingsGet_append_of_none rest cs s h

/-- Inserting a fresh key appends it. -/
theorem bindingsInsert_of_none : ∀ (bs : List (String × SValue)) (s : String) (v : SValue),
    bindingsGet bs s = none → bindingsInsert bs s v = bs ++ [(s, v)]
  | [], s, v, _ => rfl
  | (k, w) :: rest, s, v, h => by
    by_cases hk : k = s
    · simp [bindingsGet, hk] at h
    · simp [bindingsInsert, hk]
      exact bindingsInsert_of_none rest s v (by simpa [bindingsGet, hk] using h)

/-- On an association list with pairwise distinct keys, every member pair
is found by lookup. -/
theorem bindingsGet_of_mem : ∀ (pairs : List (String × SValue)) (n : String) (v : SValue),
    (pairs.map Prod.fst).Nodup → (n, v) ∈ pairs → bindingsGet pairs n = some v
  | [], n, v, _, h => absurd h (List.not_mem_nil _)
  | (k, w) :: rest, n, v, hnd, hmem => by
    have hnd' : k ∉ rest.map Prod.fst ∧ (rest.map Prod.fst).Nodup := by
      simpa [List.nodup_cons] using hnd
    rcases List.mem_cons.mp hmem with h1 | h2
    · cases h1
      simp [bindingsGet]
    · have hk : k ≠ n := by
        intro he
        exact hnd'.1 (he ▸ List.mem_map_of_mem Prod.fst h2)
      simp [bindingsGet, hk]
      exact bindingsGet_of_mem rest n v hnd'.2 h2

/-- `make_call_frame`'s loop on two proper lists of equal length with
distinct symbol formals: every pair is defined in order into the target
frame. -/
theorem mcf_loop_ok : ∀ (pairs acc : List (String × SValue)) (p : Option Nat)
    (addr : Nat) (st : Store),
    (pairs.map Prod.fst).Nodup → (∀ q ∈ pairs, bindingsGet acc q.1 = none) →
    storeGet st addr = some ⟨acc, p⟩ →
    make_call_frame_loop (ofList (pairs.map fun q => SValue.sym q.1))
        (ofList (pairs.map Prod.snd)) addr st
      = (.ok (), storeSet st addr ⟨acc ++ pairs, p⟩)
  | [], acc, p, addr, st, _, _, hget => by
    simp [ofList, make_call_frame_loop, storeSet_self st addr ⟨acc, p⟩ hget]
  | (n, v) :: rest, acc, p, addr, st, hnd, hfresh, hget => by
    have hnd' : n ∉ rest.map Prod.fst ∧ (rest.map Prod.fst).Nodup := by
      simpa [List.nodup_cons] using hnd
    have hfr : bindingsGet acc n = none := hfresh (n, v) (List.mem_cons_self _ _)
    have hins : bindingsInsert acc n v = acc ++ [(n, v)] := bindingsInsert_of_none acc n v hfr
    have hfresh' : ∀ q ∈ rest, bindingsGet (acc ++ [(n, v)]) q.1 = none := by
      intro q hq
      have h1 : bindingsGet acc q.1 = none := hfresh q (List.mem_cons_of_mem _ hq)
      have h2 : n ≠ q.1 := by
        intro he
        exact hnd'.1 (he ▸ List.mem_map_of_mem Prod.fst hq)
      rw [bindingsGet_append_of_none acc _ q.1 h1]
      simp [bindingsGet, h2]
    have hget' : storeGet (storeSet st addr ⟨acc ++ [(n, v)], p⟩) addr
        = some ⟨acc ++ [(n, v)], p⟩ := storeGet_set_self st addr ⟨acc, p⟩ _ hget
    have hrec := mcf_loop_ok rest (acc ++ [(n, v)]) p addr
      (storeSet st addr ⟨acc ++ [(n, v)], p⟩) hnd'.2 hfresh' hget'
    simp [ofList, make_call_frame_loop, frame_define, hget, hins, hrec,
      storeSet_storeSet, List.append_assoc]

/-- `make_call_frame`'s loop notices a length mismatch between a proper
symbol formal list and a proper value list with the `parameter mismatch`
error. -/
theorem mcf_loop_mismatch : ∀ (names : List String) (vs : List SValue)
    (addr : Nat) (st : Store) (fr : FrameData),
    names.length ≠ vs.length → storeGet st addr = some fr →
    (make_call_frame_loop (ofList (names.map SValue.sym)) (ofList vs) addr st).1
      = .error .parameterMismatch
  | [], [], _, _, _, hlen, _ => absurd rfl hlen
  | [], v :: vs, _, _, _, _, _ => rfl
  | n :: ns, [], _, _, _, _, _ => rfl
  | n :: ns, v :: vs, addr, st, fr, hlen, hget => by
    have hrec := mcf_loop_mismatch ns vs addr
      (storeSet st addr ⟨bindingsInsert fr.bindings n v, fr.parent⟩)
      ⟨bindingsInsert fr.bindings n v, fr.parent⟩
      (by simpa using hlen) (storeGet_set_self st addr fr _ hget)
    simp [ofList, make_call_frame_loop, frame_define, hget, hrec]

/-- The pairwise walk rejects improper (non-list) formals or values: the
loop never returns successfully when either side is not a proper list
(the failure is `parameter mismatch`, `bad variable name` or a host
`AttributeError`, depending on where the walk stops). -/
theorem mcf_loop_improper : ∀ (formals vals : SValue) (addr : Nat) (st : Store),
    scheme_listp formals = false ∨ scheme_listp vals = false →
    ∃ e, (make_call_frame_loop formals vals addr st).1 = .error e := by
  intro formals
  induction formals <;> intro vals addr st h
  case pair f fs ihf ihs =>
    cases vals <;>
      first
      | exact ⟨.parameterMismatch, rfl⟩
      | exact ⟨.hostCrash, rfl⟩
      | (rename_i v vs
         have h' : scheme_listp fs = false ∨ scheme_listp vs = false := by
           simpa [scheme_listp] using h
         cases hd : frame_define st addr f v with
         | error e => exact ⟨e, by simp [make_call_frame_loop, hd]⟩
         | ok st' =>
           obtain ⟨e, he⟩ := ihs vs addr st' h'
           exact ⟨e, by simp [make_call_frame_loop, hd, he]⟩)
  all_goals
    cases vals <;>
      first
      | exact ⟨.parameterMismatch, rfl⟩
      | exact ⟨.hostCrash, rfl⟩
      | simp [scheme_listp] at h

/-! ## Claim C4: make_call_frame -/

/-- C4: `make_call_frame` on two proper lists of equal length — given
here as a list of name/value pairs, with distinct formal names — returns
a new frame whose parent is the receiver, holding exactly the positional
name-to-value bindings, and lookup in the new frame finds each formal's
corresponding argument (first conjunct).  Whenever the two proper lists
do not have the same length, it fails with the `parameter mismatch`
arity error (second conjunct).  The check is made pairwise, so malformed
non-list formals or arguments are rejected too: the loop fails with some
error and never returns a frame (third conjunct). -/
theorem C4_make_call_frame_spec (pairs : List (String × SValue)) (names : List String)
    (vs : List SValue) (formals vals : SValue) (st : Store) (parent : Nat) :
    ((pairs.map Prod.fst).Nodup →
      make_call_frame st parent (ofList (pairs.map fun q => SValue.sym q.1))
          (ofList (pairs.map Prod.snd))
        = (.ok st.length, st ++ [⟨pairs, some parent⟩])
      ∧ ∀ q ∈ pairs, frame_lookup (st ++ [⟨pairs, some parent⟩]) st.length q.1 = .ok q.2)
    ∧ (names.length ≠ vs.length →
      (make_call_frame st parent (ofList (names.map SValue.sym)) (ofList vs)).1
        = .error .parameterMismatch)
    ∧ ((scheme_listp formals = false ∨ scheme_listp vals = false) →
      ∃ e, (make_call_frame st parent formals vals).1 = .error e) := by
  refine ⟨?_, ?_, ?_⟩
  · intro hnd
    have hloop := mcf_loop_ok pairs [] (some parent) st.length (st ++ [⟨[], some parent⟩])
      hnd (fun q _ => rfl) (storeGet_concat_self st _)
    constructor
    · simp [make_call_frame, hloop, storeSet_concat_self]
    · intro q hq
      show frame_lookupAux _ (st.length + 1) st.length q.1 = .ok q.2
      simp only [frame_lookupAux, storeGet_concat_self]
      rw [bindingsGet_of_mem pairs q.1 q.2 hnd (by simpa using hq)]
  · intro hlen
    have hres := mcf_loop_mismatch names vs st.length (st ++ [⟨[], some parent⟩])
      ⟨[], some parent⟩ hlen (storeGet_concat_self st _)
    rcases hloop : make_call_frame_loop (ofList (names.map SValue.sym)) (ofList vs)
      st.length (st ++ [⟨[], some parent⟩]) with ⟨r, st2⟩
    rw [hloop] at hres
    simp at hres
    simp [make_call_frame, hloop, hres]
  · intro h
    obtain ⟨e, he⟩ := mcf_loop_improper formals vals st.length (st ++ [⟨[], some parent⟩]) h
    rcases hloop : make_call_frame_loop formals vals st.length (st ++ [⟨[], some parent⟩])
      with ⟨r, st2⟩
    rw [hloop] at he
    simp at he
    refine ⟨e, ?_⟩
    simp [make_call_frame, hloop, he]

/-- Witness for C4 at the spec's concrete inputs: formals `(a b c)` with
arguments `(1 2 3)` yield a frame (child of the global frame) binding
them positionally, where `lookup(b) = 2`; formals `(a b)` against
`(1 2 3)` fail with the arity error; and the improper formal list
`(a . b)` is rejected with some error. -/
theorem C4_witness :
    make_call_frame [⟨[], none⟩] 0 (ofList [.sym "a", .sym "b", .sym "c"])
        (ofList [.num 1, .num 2, .num 3])
      = (.ok 1, [⟨[], none⟩, ⟨[("a", .num 1), ("b", .num 2), ("c", .num 3)], some 0⟩])
    ∧ frame_lookup [⟨[], none⟩, ⟨[("a", .num 1), ("b", .num 2), ("c", .num 3)], some 0⟩] 1 "b"
      = .ok (.num 2)
    ∧ (make_call_frame [⟨[], none⟩] 0 (ofList [.sym "a", .sym "b"])
        (ofList [.num 1, .num 2, .num 3])).1 = .error .parameterMismatch
    ∧ ∃ e, (make_call_frame [⟨[], none⟩] 0 (.pair (.sym "a") (.sym "b"))
        (ofList [.num 1, .num 2])).1 = .error e := by
  have h := C4_make_call_frame_spec [("a", .num 1), ("b", .num 2), ("c", .num 3)]
    ["a", "b"] [.num 1, .num 2, .num 3] (.pair (.sym "a") (.sym "b"))
    (ofList [.num 1, .num 2]) [⟨[], none⟩] 0
  have h1 := h.1 (by decide)
  exact ⟨h1.1, h1.2 ("b", .num 2) (by decide), h.2.1 (by decide), h.2.2 (Or.inl (by decide))⟩

end SchemeEmu

namespace SchemeEmu

/-! ## Claim C8: check_formals -/

/-- A violation-free prefix of distinct symbols passes the loop. -/
theorem cf_aux_ok (names : List String) : ∀ acc : List SValue,
    names.Nodup → (∀ n ∈ names, SValue.sym n ∉ acc) →
    check_formals_aux acc (ofList (names.map SValue.sym)) = .ok () := by
  induction names with
  | nil => intro acc _ _; rfl
  | cons n ns ih =>
    intro acc hnd hfresh
    have hnd' : n ∉ ns ∧ ns.Nodup := by simpa [List.nodup_cons] using hnd
    have hn : SValue.sym n ∉ acc := hfresh n (List.mem_cons_self _ _)
    simp only [List.map_cons, ofList, check_formals_aux, if_neg hn, scheme_symbolp, if_pos]
    exact ih (SValue.sym n :: acc) hnd'.2 (by
      intro m hm
      simp only [List.mem_cons]
      push_neg
      refine ⟨?_, hfresh m (List.mem_cons_of_mem _ hm)⟩
      intro he
      have hmn : m = n := by simpa using he
      exact hnd'.1 (hmn ▸ hm))

/-- After a violation-free prefix, an element already seen stops the loop
with the duplicate error, whatever follows it. -/
theorem cf_aux_dup (names : List String) : ∀ (acc : List SValue) (s : String) (rest : SValue),
    names.Nodup → (∀ n ∈ names, SValue.sym n ∉ acc) → (s ∈ names ∨ SValue.sym s ∈ acc) →
    check_formals_aux acc ((names.map SValue.sym).foldr SValue.pair (.pair (.sym s) rest))
      = .error (.duplicateFormal (.sym s)) := by
  induction names with
  | nil =>
    intro acc s rest _ _ hmem
    rcases hmem with h | h
    · exact absurd h (List.not_mem_nil s)
    · simp [check_formals_aux, h]
  | cons n ns ih =>
    intro acc s rest hnd hfresh hmem
    have hnd' : n ∉ ns ∧ ns.Nodup := by simpa [List.nodup_cons] using hnd
    have hn : SValue.sym n ∉ acc := hfresh n (List.mem_cons_self _ _)
    simp only [List.map_cons, List.foldr_cons, check_formals_aux, if_neg hn, scheme_symbolp,
      if_pos]
    refine ih (SValue.sym n :: acc) s rest hnd'.2 (by
      intro m hm
      simp only [List.mem_cons]
      push_neg
      refine ⟨?_, hfresh m (List.mem_cons_of_mem _ hm)⟩
      intro he
      have hmn : m = n := by simpa using he
      exact hnd'.1 (hmn ▸ hm)) ?_
    rcases hmem with h | h
    · rcases List.mem_cons.mp h with h1 | h2
      · exact Or.inr (by simp [h1])
      · exact Or.inl h2
    · exact Or.inr (List.mem_cons_of_mem _ h)

/-- After a violation-free prefix, a non-symbol element stops the loop
with the invalid-formal error, whatever follows it. -/
theorem cf_aux_invalid (names : List String) : ∀ (acc : List SValue) (v rest : SValue),
    names.Nodup → (∀ n ∈ names, SValue.sym n ∉ acc) → (∀ x ∈ acc, scheme_symbolp x = true) →
    scheme_symbolp v = false →
    check_formals_aux acc ((names.map SValue.sym).foldr SValue.pair (.pair v rest))
      = .error (.invalidFormal v) := by
  induction names with
  | nil =>
    intro acc v rest _ _ hacc hv
    have hnm : v ∉ acc := by
      intro hm
      rw [hacc v hm] at hv
      cases hv
    simp [check_formals_aux, hnm, hv]
  | cons n ns ih =>
    intro acc v rest hnd hfresh hacc hv
    have hnd' : n ∉ ns ∧ ns.Nodup := by simpa [List.nodup_cons] using hnd
    have hn : SValue.sym n ∉ acc := hfresh n (List.mem_cons_self _ _)
    simp only [List.map_cons, List.foldr_cons, check_formals_aux, if_neg hn, scheme_symbolp,
      if_pos]
    exact ih (SValue.sym n :: acc) v rest hnd'.2 (by
        intro m hm
        simp only [List.mem_cons]
        push_neg
        refine ⟨?_, hfresh m (List.mem_cons_of_mem _ hm)⟩
        intro he
        have hmn : m = n := by simpa using he
        exact hnd'.1 (hmn ▸ hm))
      (by
        intro x hx
        rcases List.mem_cons.mp hx with h1 | h2
        · simp [h1, scheme_symbolp]
        · exact hacc x h2) hv

/-- C8: `check_formals` succeeds silently on every proper list of
pairwise distinct symbols (first conjunct); after any violation-free
prefix of distinct symbols, it fails with the duplicate-formal error
naming the first repeated element (second conjunct) and with the
invalid-formal error naming the first non-symbol element (third
conjunct) — in both cases whatever follows the violation, so the first
violation in left-to-right order is reported.  Concretely, `(a b b)`
fails with the duplicate error on `b` and `(a 1)` with the
invalid-formal error on `1`. -/
theorem C8_check_formals_spec (names : List String) (s : String) (v : SValue)
    (tail1 tail2 : SValue) :
    (names.Nodup → check_formals (ofList (names.map SValue.sym)) = .ok ())
    ∧ (names.Nodup → s ∈ names →
      check_formals ((names.map SValue.sym).foldr SValue.pair (.pair (.sym s) tail1))
        = .error (.duplicateFormal (.sym s)))
    ∧ (names.Nodup → scheme_symbolp v = false →
      check_formals ((names.map SValue.sym).foldr SValue.pair (.pair v tail2))
        = .error (.invalidFormal v))
    ∧ check_formals (ofList [.sym "a", .sym "b", .sym "b"])
        = .error (.duplicateFormal (.sym "b"))
    ∧ check_formals (ofList [.sym "a", .num 1]) = .error (.invalidFormal (.num 1)) := by
  refine ⟨?_, ?_, ?_, rfl, rfl⟩
  · intro hnd
    exact cf_aux_ok names [] hnd (by intro n _; exact List.not_mem_nil _)
  · intro hnd hs
    exact cf_aux_dup names [] s tail1 hnd (by intro n _; exact List.not_mem_nil _) (Or.inl hs)
  · intro hnd hv
    exact cf_aux_invalid names [] v tail2 hnd (by intro n _; exact List.not_mem_nil _)
      (by intro x hx; exact absurd hx (List.not_mem_nil _)) hv

/-- Witness for C8 at concrete inputs: `(a b)` passes, `(a b b)` fails
with the duplicate error on `b`, `(a b 1)` fails with the invalid
error on `1`. -/
theorem C8_witness :
    check_formals (ofList [.sym "a", .sym "b"]) = .ok ()
    ∧ check_formals (.pair (.sym "a") (.pair (.sym "b") (.pair (.sym "b") .nil)))
        = .error (.duplicateFormal (.sym "b"))
    ∧ check_formals (.pair (.sym "a") (.pair (.sym "b") (.pair (.num 1) .nil)))
        = .error (.invalidFormal (.num 1)) := by
  have h := C8_check_formals_spec ["a", "b"] "b" (.num 1) .nil .nil
  exact ⟨h.1 (by decide), h.2.1 (by decide) (by decide), h.2.2.1 (by decide) (by decide)⟩

/-! ## Claim C10 (corrected): atomicity of define -/

/-- Counterexample to C10 as stated: evaluating
`(define x (begin (define y 1) z))` in an empty global frame raises the
unbound-identifier error for `z` while evaluating the value expression,
yet a binding for `y` has been added to the target environment by the
nested `define` inside the value expression — `do_define_form` errors
without the environment having been left unchanged. -/
theorem C10_counterexample :
    scheme_eval 6 (ofList [.sym "define", .sym "x",
        ofList [.sym "begin", ofList [.sym "define", .sym "y", .num 1], .sym "z"]])
        0 [⟨[], none⟩]
      = some (.error (.unknownIdentifier "z"), [⟨[("y", .num 1)], none⟩]) := rfl

/-- C10 (amended): `do_define_form` itself installs a binding only on
successful return, and its own validation failures leave every frame
unchanged; mutations performed by the evaluation of the value
expression, however, persist even when that evaluation fails.  In
detail: operand-shape failures of the whole form happen before any
evaluation and leave the store unchanged (first conjunct); an invalid
target shape likewise (second conjunct); the procedure shorthand never
evaluates anything, so every failing run of it leaves the store
unchanged (third conjunct); for a symbol target, a failing evaluation of
the value expression propagates its error with exactly the store that
the sub-evaluation produced, the target binding not being installed
(fourth conjunct); the binding is installed exactly on successful
evaluation (fifth conjunct); and a symbol target with more than two
operands fails with the too-many-operands error before any evaluation
(sixth conjunct). -/
theorem C10_define_amended :
    (∀ (ev : EvalFn) (vals : SValue) (env : Nat) (st : Store) (e : Err),
      check_form vals 2 none = .error e → do_define_form ev vals env st = some (.error e, st))
    ∧ (∀ (ev : EvalFn) (t r1 : SValue) (env : Nat) (st : Store),
      check_form (.pair t r1) 2 none = .ok () → scheme_symbolp t = false →
      (∀ a b, t ≠ .pair a b) →
      do_define_form ev (.pair t r1) env st = some (.error .badDefineTarget, st))
    ∧ (∀ (ev : EvalFn) (n fs r1 : SValue) (env : Nat) (st : Store) (e : Err) (st' : Store),
      do_define_form ev (.pair (.pair n fs) r1) env st = some (.error e, st') → st' = st)
    ∧ (∀ (ev : EvalFn) (s : String) (vx : SValue) (env : Nat) (st : Store) (e : Err)
        (st1 : Store),
      ev vx env st = some (.error e, st1) →
      do_define_form ev (.pair (.sym s) (.pair vx .nil)) env st = some (.error e, st1))
    ∧ (∀ (ev : EvalFn) (s : String) (vx : SValue) (env : Nat) (st : Store) (v : SValue)
        (st1 : Store) (fr : FrameData),
      ev vx env st = some (.ok v, st1) → storeGet st1 env = some fr →
      do_define_form ev (.pair (.sym s) (.pair vx .nil)) env st
        = some (.ok (.sym s), storeSet st1 env ⟨bindingsInsert fr.bindings s v, fr.parent⟩))
    ∧ (∀ (ev : EvalFn) (s : String) (vx e3 : SValue) (l : List SValue) (env : Nat) (st : Store),
      do_define_form ev (ofList (.sym s :: vx :: e3 :: l)) env st
        = some (.error .tooManyOperands, st)) := by
  refine ⟨?_, ?_, ?_, ?_, ?_, ?_⟩
  · intro ev vals env st e hcf
    simp [do_define_form, hcf]
  · intro ev t r1 env st hcf hsym hnp
    cases t with
    | pair a b => exact absurd rfl (hnp a b)
    | sym s0 => simp [scheme_symbolp] at hsym
    | num n => simp [do_define_form, hcf, scheme_symbolp]
    | boolean b => simp [do_define_form, hcf, scheme_symbolp]
    | strv s0 => simp [do_define_form, hcf, scheme_symbolp]
    | nil => simp [do_define_form, hcf, scheme_symbolp]
    | okay => simp [do_define_form, hcf, scheme_symbolp]
    | prim a b => simp [do_define_form, hcf, scheme_symbolp]
    | lambdaP a b c => simp [do_define_form, hcf, scheme_symbolp]
    | muP a b => simp [do_define_form, hcf, scheme_symbolp]
  · intro ev n fs r1 env st e st' h
    cases hcf : check_form (.pair (.pair n fs) r1) 2 none with
    | error e0 =>
      simp [do_define_form, hcf] at h
      exact h.2.symm
    | ok u =>
      simp only [do_define_form, hcf, scheme_symbolp] at h
      cases hlam : do_lambda_form (.pair fs r1) env with
      | error e0 =>
        simp [hlam] at h
        exact h.2.symm
      | ok f =>
        simp only [hlam] at h
        cases hdef : frame_define st env n f with
        | error e0 =>
          simp [hdef] at h
          exact h.2.symm
        | ok st1 =>
          simp [hdef] at h
  · intro ev s vx env st e st1 hev
    simp [do_define_form, check_form, scheme_listp, slistLength, scheme_symbolp, hev]
  · intro ev s vx env st v st1 fr hev hfr
    simp [do_define_form, check_form, scheme_listp, slistLength, scheme_symbolp, hev,
      frame_define, hfr]
  · intro ev s vx e3 l env st
    have hlp : scheme_listp ((SValue.sym s).pair (vx.pair (e3.pair (ofList l)))) = true := by
      simp [scheme_listp, scheme_listp_ofList]
    have hlen : slistLength ((SValue.sym s).pair (vx.pair (e3.pair (ofList l))))
        = l.length + 3 := by
      simp [slistLength, slistLength_ofList]
    have h23 : 2 < l.length + 3 := by omega
    have hn2 : ¬ (l.length + 3 < 2) := by omega
    simp [do_define_form, check_form, ofList, hlp, hlen, h23, hn2, scheme_symbolp]

/-- Witness for C10 at concrete inputs: a failing value evaluation
(`(define x z)` with `z` unbound) propagates the error with the store
unchanged and no binding installed; `(define)` fails with the
too-few-operands error leaving the store unchanged; and `(define x 7)`
installs exactly the binding for `x`. -/
theorem C10_witness :
    do_define_form (scheme_eval 3) (.pair (.sym "x") (.pair (.sym "z") .nil)) 0 [⟨[], none⟩]
      = some (.error (.unknownIdentifier "z"), [⟨[], none⟩])
    ∧ do_define_form (scheme_eval 3) SValue.nil 0 [⟨[], none⟩]
      = some (.error .tooFewOperands, [⟨[], none⟩])
    ∧ do_define_form (scheme_eval 3) (.pair (.sym "x") (.pair (.num 7) .nil)) 0 [⟨[], none⟩]
      = some (.ok (.sym "x"), [⟨[("x", .num 7)], none⟩]) := by
  have h := C10_define_amended
  refine ⟨h.2.2.2.1 (scheme_eval 3) "x" (.sym "z") 0 [⟨[], none⟩]
      (.unknownIdentifier "z") [⟨[], none⟩] rfl,
    h.1 (scheme_eval 3) SValue.nil 0 [⟨[], none⟩] .tooFewOperands rfl,
    h.2.2.2.2.1 (scheme_eval 3) "x" (.num 7) 0 [⟨[], none⟩] (.num 7) [⟨[], none⟩]
      ⟨[], none⟩ rfl rfl⟩

end SchemeEmu
